import Mathlib

/-!
Verification development for the milanDSA explore feed.

The first part embeds the pan/zoom viewport component
(`src/components/draggable-canvas.tsx`): its state is the pan offset, the
scale factor, the dragging flag and the drag-start anchor, and each event
handler of the component becomes a pure transition function on that state.
Numbers are modelled as rationals.

The second part embeds the explore page controller (hashtag editing and the
fetch / search / upload orchestration).
-/

namespace Milan

/-- State of the `DraggableCanvas` component: `useState` hooks `pan`,
`scale`, `isDragging` and `dragStart` (lines 12-15 of the source). -/
structure CanvasState where
  pan : ℚ × ℚ
  scale : ℚ
  isDragging : Bool
  dragStart : ℚ × ℚ
  deriving DecidableEq

/-- Initial state: `pan = (0,0)`, `scale = 0.3`, not dragging. -/
def initCanvas : CanvasState :=
  { pan := (0, 0), scale := 3/10, isDragging := false, dragStart := (0, 0) }

/-- Events the component handles, carrying the data the handlers read:
mouse button and client coordinates, touch lists, wheel `deltaY`,
and the reset-button click. -/
inductive CanvasEvent where
  | mouseDown (button : ℤ) (client : ℚ × ℚ)
  | mouseMove (client : ℚ × ℚ)
  | mouseUp
  | mouseLeave
  | touchStart (touches : List (ℚ × ℚ))
  | touchMove (touches : List (ℚ × ℚ))
  | touchEnd
  | wheel (deltaY : ℚ)
  | reset
  deriving DecidableEq

/-- Handler `handleMouseDown`: only the left button (0) starts a drag; the anchor is
`client - pan`. -/
def handleMouseDown (st : CanvasState) (button : ℤ) (c : ℚ × ℚ) : CanvasState :=
  if button ≠ 0 then st
  else { st with isDragging := true,
                 dragStart := (c.1 - st.pan.1, c.2 - st.pan.2) }

/-- Handler `handleMouseMove`: while dragging, pan is recomputed as
`client - dragStart`. -/
def handleMouseMove (st : CanvasState) (c : ℚ × ℚ) : CanvasState :=
  if st.isDragging = false then st
  else { st with pan := (c.1 - st.dragStart.1, c.2 - st.dragStart.2) }

/-- Handler `handleMouseUp`: ends the drag. -/
def handleMouseUp (st : CanvasState) : CanvasState :=
  { st with isDragging := false }

/-- Handler `handleMouseLeave`: ends the drag. -/
def handleMouseLeave (st : CanvasState) : CanvasState :=
  { st with isDragging := false }

/-- Handler `handleTouchStart`: a single touch starts a drag with the same anchor
formula as the mouse handler; any other touch count does nothing. -/
def handleTouchStart (st : CanvasState) (touches : List (ℚ × ℚ)) : CanvasState :=
  match touches with
  | [t] => { st with isDragging := true,
                     dragStart := (t.1 - st.pan.1, t.2 - st.pan.2) }
  | _ => st

/-- Handler `handleTouchMove`: while dragging with exactly one touch, pan is
recomputed as `touch - dragStart`; otherwise nothing happens. -/
def handleTouchMove (st : CanvasState) (touches : List (ℚ × ℚ)) : CanvasState :=
  if st.isDragging = false then st
  else
    match touches with
    | [t] => { st with pan := (t.1 - st.dragStart.1, t.2 - st.dragStart.2) }
    | _ => st

/-- Handler `handleTouchEnd`: ends the drag. -/
def handleTouchEnd (st : CanvasState) : CanvasState :=
  { st with isDragging := false }

/-- Handler `handleWheel`: `delta = deltaY * -0.001`,
`newScale = min (max 0.3 (scale + delta)) 3`. -/
def handleWheel (st : CanvasState) (deltaY : ℚ) : CanvasState :=
  let delta := deltaY * (-1/1000)
  { st with scale := min (max (3/10) (st.scale + delta)) 3 }

/-- Handler `resetView`: pan back to the origin, scale back to 1. -/
def resetView (st : CanvasState) : CanvasState :=
  { st with pan := (0, 0), scale := 1 }

/-- Dispatch of events to the handlers, as wired in the component's JSX. -/
def canvasStep (st : CanvasState) : CanvasEvent → CanvasState
  | .mouseDown b c => handleMouseDown st b c
  | .mouseMove c => handleMouseMove st c
  | .mouseUp => handleMouseUp st
  | .mouseLeave => handleMouseLeave st
  | .touchStart ts => handleTouchStart st ts
  | .touchMove ts => handleTouchMove st ts
  | .touchEnd => handleTouchEnd st
  | .wheel d => handleWheel st d
  | .reset => resetView st

/-- Run a whole event sequence from a state. -/
def canvasRun (st : CanvasState) (es : List CanvasEvent) : CanvasState :=
  es.foldl canvasStep st

/-- A single wheel event always lands the scale in `[0.3, 3]`. -/
theorem handleWheel_scale_mem (st : CanvasState) (d : ℚ) :
    3/10 ≤ (handleWheel st d).scale ∧ (handleWheel st d).scale ≤ 3 := by
  constructor
  · exact le_min (le_max_left _ _) (by norm_num)
  · exact min_le_right _ _

/-- Folding wheel events from any state keeps the scale in range provided
the start is in range. -/
theorem wheelFold_scale_mem (l : List ℚ) :
    ∀ st : CanvasState, 3/10 ≤ st.scale → st.scale ≤ 3 →
      3/10 ≤ (l.foldl (fun s d => canvasStep s (.wheel d)) st).scale ∧
      (l.foldl (fun s d => canvasStep s (.wheel d)) st).scale ≤ 3 := by
  induction l with
  | nil => intro st h1 h2; exact ⟨h1, h2⟩
  | cons d l ih =>
    intro st _ _
    simpa using ih (canvasStep st (.wheel d))
      (handleWheel_scale_mem st d).1 (handleWheel_scale_mem st d).2

/-- Claim C1: each wheel event replaces the scale with
`clamp (scale - 0.001 * deltaY) 0.3 3`, the initial scale `0.3` lies in the
range, and therefore every sequence of wheel events applied from the
initial state keeps the scale inside `[0.3, 3]`. -/
theorem wheel_scale_clamped :
    (3/10 ≤ initCanvas.scale ∧ initCanvas.scale ≤ 3) ∧
    (∀ (st : CanvasState) (d : ℚ),
      (canvasStep st (.wheel d)).scale =
        min (max (st.scale + (-1/1000) * d) (3/10)) 3) ∧
    (∀ l : List ℚ,
      3/10 ≤ (l.foldl (fun s d => canvasStep s (.wheel d)) initCanvas).scale ∧
      (l.foldl (fun s d => canvasStep s (.wheel d)) initCanvas).scale ≤ 3) := by
  refine ⟨⟨le_refl _, by norm_num [initCanvas]⟩, ?_, ?_⟩
  · intro st d
    simp [canvasStep, handleWheel, max_comm, mul_comm]
  · intro l
    exact wheelFold_scale_mem l initCanvas (le_refl _) (by norm_num [initCanvas])

/-- While dragging, a run of mouse-move events ending at `p` leaves the pan
at `p - dragStart`, independently of the earlier moves. -/
theorem mouseMoves_last (ps : List (ℚ × ℚ)) :
    ∀ (st : CanvasState) (p : ℚ × ℚ), st.isDragging = true →
      ((ps ++ [p]).foldl (fun s q => canvasStep s (.mouseMove q)) st).pan =
        (p.1 - st.dragStart.1, p.2 - st.dragStart.2) := by
  induction ps with
  | nil =>
    intro st p h
    simp [canvasStep, handleMouseMove, h]
  | cons q ps ih =>
    intro st p h
    have hstep : canvasStep st (.mouseMove q) =
        { st with pan := (q.1 - st.dragStart.1, q.2 - st.dragStart.2) } := by
      simp [canvasStep, handleMouseMove, h]
    simp only [List.cons_append, List.foldl_cons]
    rw [hstep]
    exact ih _ p h

/-- Claim C2: a left-button mouse-down at `p0` from pan `pan0` followed by
any run of mouse-moves ending at `p` leaves the pan at exactly
`pan0 + (p - p0)`: the pan depends only on the last pointer position. -/
theorem drag_pan_from_anchor (st : CanvasState) (p0 : ℚ × ℚ)
    (ps : List (ℚ × ℚ)) (p : ℚ × ℚ) :
    ((ps ++ [p]).foldl (fun s q => canvasStep s (.mouseMove q))
        (canvasStep st (.mouseDown 0 p0))).pan =
      (st.pan.1 + (p.1 - p0.1), st.pan.2 + (p.2 - p0.2)) := by
  have hdown : canvasStep st (.mouseDown 0 p0) =
      { st with isDragging := true,
                dragStart := (p0.1 - st.pan.1, p0.2 - st.pan.2) } := by
    simp [canvasStep, handleMouseDown]
  rw [hdown, mouseMoves_last ps _ p rfl]
  simp only [Prod.mk.injEq]
  constructor <;> ring

/-- Claim C6: from any viewport state, the reset action sets the pan offset
to exactly `(0, 0)` and the scale to the fixed default `1`. -/
theorem resetView_restores (st : CanvasState) :
    (canvasStep st .reset).pan = (0, 0) ∧ (canvasStep st .reset).scale = 1 :=
  ⟨rfl, rfl⟩

/-- Claim C9: the initial scale is `0.3`, the reset action always sets the
scale to `1`, so resetting never returns the viewport to its initial scale. -/
theorem resetView_scale_ne_initial :
    initCanvas.scale = 3/10 ∧
    (∀ st : CanvasState, (canvasStep st .reset).scale = 1) ∧
    (∀ st : CanvasState, (canvasStep st .reset).scale ≠ initCanvas.scale) := by
  refine ⟨rfl, fun _ => rfl, fun _ => ?_⟩
  norm_num [canvasStep, resetView, initCanvas]

/-- Counterexample to claim C7 as stated: from a non-dragging state with a
nonzero pan, the reset event changes the pan, so the pan can change outside
any pointer-down/pointer-up window. -/
theorem pan_change_outside_drag_cex :
    (⟨(1, 2), 1, false, (0, 0)⟩ : CanvasState).isDragging = false ∧
    (canvasStep ⟨(1, 2), 1, false, (0, 0)⟩ .reset).pan ≠
      (⟨(1, 2), 1, false, (0, 0)⟩ : CanvasState).pan := by
  refine ⟨rfl, ?_⟩
  simp [canvasStep, resetView, Prod.ext_iff]

/-- Claim C7 (amended): mouse-up and mouse-leave end the drag, and any event
that changes the pan is either a mouse/touch move performed while dragging
or the reset action. -/
theorem pan_changes_only_dragging_or_reset (st : CanvasState) (e : CanvasEvent) :
    (canvasStep st .mouseUp).isDragging = false ∧
    (canvasStep st .mouseLeave).isDragging = false ∧
    ((canvasStep st e).pan ≠ st.pan →
      (st.isDragging = true ∧
        ((∃ p, e = .mouseMove p) ∨ (∃ ts, e = .touchMove ts))) ∨ e = .reset) := by
  refine ⟨rfl, rfl, ?_⟩
  intro hne
  cases e with
  | mouseDown b c =>
    exfalso; apply hne
    simp only [canvasStep, handleMouseDown]
    split <;> rfl
  | mouseMove c =>
    cases hd : st.isDragging with
    | false =>
      exfalso; apply hne
      simp [canvasStep, handleMouseMove, hd]
    | true => exact Or.inl ⟨rfl, Or.inl ⟨c, rfl⟩⟩
  | mouseUp => exact absurd rfl hne
  | mouseLeave => exact absurd rfl hne
  | touchStart ts =>
    exfalso; apply hne
    simp only [canvasStep, handleTouchStart]
    split <;> rfl
  | touchMove ts =>
    cases hd : st.isDragging with
    | false =>
      exfalso; apply hne
      simp [canvasStep, handleTouchMove, hd]
    | true => exact Or.inl ⟨rfl, Or.inr ⟨ts, rfl⟩⟩
  | touchEnd => exact absurd rfl hne
  | wheel d => exact absurd rfl hne
  | reset => exact Or.inr rfl

/-- Witness for the amended claim C7 at a concrete dragging state and a
concrete mouse move that does change the pan. -/
theorem pan_changes_only_dragging_or_reset_witness :
    (canvasStep ⟨(0, 0), 1, true, (0, 0)⟩ .mouseUp).isDragging = false ∧
    ((((⟨(0, 0), 1, true, (0, 0)⟩ : CanvasState).isDragging = true ∧
      ((∃ p, CanvasEvent.mouseMove ((5 : ℚ), (5 : ℚ)) = .mouseMove p) ∨
        (∃ ts, CanvasEvent.mouseMove ((5 : ℚ), (5 : ℚ)) = .touchMove ts))) ∨
      CanvasEvent.mouseMove ((5 : ℚ), (5 : ℚ)) = .reset)) := by
  have h := pan_changes_only_dragging_or_reset
    ⟨(0, 0), 1, true, (0, 0)⟩ (.mouseMove ((5 : ℚ), (5 : ℚ)))
  exact ⟨h.1, h.2.2 (by simp [canvasStep, handleMouseMove, Prod.ext_iff])⟩

/-- Claim C8: a single-touch touch-start acts exactly like a left-button
mouse-down at the touch point, a single-touch touch-move while dragging acts
exactly like a mouse-move, and any touch-start or touch-move whose touch
count is not one leaves the whole state (dragging flag and pan included)
unchanged. -/
theorem touch_mirrors_mouse (st : CanvasState) (t : ℚ × ℚ)
    (ts : List (ℚ × ℚ)) :
    (canvasStep st (.touchStart [t])).isDragging = true ∧
    (canvasStep st (.touchStart [t])).dragStart =
      (t.1 - st.pan.1, t.2 - st.pan.2) ∧
    canvasStep st (.touchStart [t]) = canvasStep st (.mouseDown 0 t) ∧
    (st.isDragging = true →
      (canvasStep st (.touchMove [t])).pan =
        (t.1 - st.dragStart.1, t.2 - st.dragStart.2)) ∧
    (st.isDragging = true →
      canvasStep st (.touchMove [t]) = canvasStep st (.mouseMove t)) ∧
    (ts.length ≠ 1 →
      canvasStep st (.touchStart ts) = st ∧ canvasStep st (.touchMove ts) = st) := by
  refine ⟨rfl, rfl, ?_, ?_, ?_, ?_⟩
  · simp [canvasStep, handleTouchStart, handleMouseDown]
  · intro hd
    simp [canvasStep, handleTouchMove, hd]
  · intro hd
    simp [canvasStep, handleTouchMove, handleMouseMove, hd]
  · intro hlen
    constructor
    · cases ts with
      | nil => rfl
      | cons a l =>
        cases l with
        | nil => exact absurd rfl hlen
        | cons b l2 => rfl
    · simp only [canvasStep, handleTouchMove]
      split
      · rfl
      · cases ts with
        | nil => rfl
        | cons a l =>
          cases l with
          | nil => exact absurd rfl hlen
          | cons b l2 => rfl

/-- Witness for claim C8 at a concrete state, a concrete touch and a
two-touch list. -/
theorem touch_mirrors_mouse_witness :
    (canvasStep ⟨(1, 1), 1, true, (2, 2)⟩
        (.touchStart [((4 : ℚ), (6 : ℚ))])).isDragging = true ∧
    (canvasStep ⟨(1, 1), 1, true, (2, 2)⟩ (.touchMove [((4 : ℚ), (6 : ℚ))])).pan =
      ((4 : ℚ) - 2, (6 : ℚ) - 2) ∧
    canvasStep ⟨(1, 1), 1, true, (2, 2)⟩
        (.touchStart [((0 : ℚ), (0 : ℚ)), ((9 : ℚ), (9 : ℚ))]) =
      ⟨(1, 1), 1, true, (2, 2)⟩ := by
  have h := touch_mirrors_mouse ⟨(1, 1), 1, true, (2, 2)⟩ ((4 : ℚ), (6 : ℚ))
    [((0 : ℚ), (0 : ℚ)), ((9 : ℚ), (9 : ℚ))]
  exact ⟨h.1, h.2.2.2.1 rfl, (h.2.2.2.2.2 (by decide)).1⟩

/-!
Explore page controller (`src/unnamed/part_000`). Strings are modelled as
lists of characters; `String.prototype.trim`, the `replace(/^#/, '')` call
and `toLowerCase` become the functions below.
-/

/-- JavaScript `trim`: drop whitespace from both ends. -/
def jsTrim (s : List Char) : List Char :=
  ((s.dropWhile Char.isWhitespace).reverse.dropWhile Char.isWhitespace).reverse

/-- The call `replace(/^#/, '')`: the regex is not anchored-global, so exactly one
leading `#` is removed when present. -/
def stripOneHash : List Char → List Char
  | '#' :: rest => rest
  | s => s

/-- The tag cleanup in `addHashtag`:
`tag.trim().replace(/^#/, '').toLowerCase()`. -/
def cleanTag (tag : List Char) : List Char :=
  (stripOneHash (jsTrim tag)).map Char.toLower

/-- A post as consumed by the page: identifier, image URL, uploader. -/
structure Post where
  id : ℕ
  image_url : List Char
  posted_by : List Char
  deriving DecidableEq

/-- A post together with its computed layout geometry. -/
structure PlacedImage where
  post : Post
  x : ℚ
  y : ℚ
  width : ℚ
  height : ℚ
  deriving DecidableEq

/-- A trending hashtag entry: tag and occurrence count. -/
structure TrendingHashtag where
  hashtag : List Char
  count : ℤ
  deriving DecidableEq

/-- The dimension map produced by `preloadImageDimensions`. -/
abbrev DimMap := List (List Char × ℚ × ℚ)

/-- The `useState` hooks of `ExplorePage`. -/
structure PageState where
  student : Option (List Char)
  posts : List Post
  placedImages : List PlacedImage
  imageDimensions : DimMap
  totalPosts : ℤ
  trendingHashtags : List TrendingHashtag
  loading : Bool
  searchQuery : List Char
  uploadModalOpen : Bool
  selectedImage : Option (List Char)
  imagePreview : List Char
  hashtags : List (List Char)
  hashtagInput : List Char
  uploading : Bool
  deriving DecidableEq

/-- Initial page state: empty collections, `loading = true`. -/
def initPage : PageState :=
  { student := none, posts := [], placedImages := [], imageDimensions := [],
    totalPosts := 0, trendingHashtags := [], loading := true, searchQuery := [],
    uploadModalOpen := false, selectedImage := none, imagePreview := [],
    hashtags := [], hashtagInput := [], uploading := false }

/-- Handler `addHashtag`: clean the input; when the cleaned tag is nonempty and not
already present, append it and clear the input field. -/
def addHashtag (st : PageState) (tag : List Char) : PageState :=
  let c := cleanTag tag
  if c ≠ [] ∧ c ∉ st.hashtags then
    { st with hashtags := st.hashtags ++ [c], hashtagInput := [] }
  else st

/-- Handler `removeHashtag`: drop every occurrence of the tag. -/
def removeHashtag (st : PageState) (tag : List Char) : PageState :=
  { st with hashtags := st.hashtags.filter (fun t => t ≠ tag) }

/-- An edit of the hashtag list. -/
inductive HtagOp where
  | add (t : List Char)
  | remove (t : List Char)

/-- Apply one hashtag edit. -/
def applyHtagOp (st : PageState) : HtagOp → PageState
  | .add t => addHashtag st t
  | .remove t => removeHashtag st t

/-- The hashtag list after a sequence of edits from the initial (empty)
state. -/
def htagRun (ops : List HtagOp) : List (List Char) :=
  (ops.foldl applyHtagOp initPage).hashtags

/-- Evaluating `Char.ofNat` at a valid code point. -/
theorem toNat_ofNat_valid (n : Nat) (h : n.isValidChar) :
    (Char.ofNat n).toNat = n := by
  rw [Char.ofNat, dif_pos h]
  simp [Char.ofNatAux, Char.toNat, UInt32.ofNat', UInt32.toNat, BitVec.toNat_ofNatLt]

/-- The function `Char.toLower` is idempotent. -/
theorem toLower_idem (c : Char) : c.toLower.toLower = c.toLower := by
  simp only [Char.toLower]
  by_cases h : c.toNat ≥ 65 ∧ c.toNat ≤ 90
  · rw [if_pos h]
    have htn : (Char.ofNat (c.toNat + 32)).toNat = c.toNat + 32 :=
      toNat_ofNat_valid _ (Or.inl (by omega))
    rw [if_neg (by rw [htn]; omega)]
  · rw [if_neg h, if_neg h]

/-- The invariant the hashtag list actually maintains: nonempty tags, fixed
by lowercasing, no duplicates. -/
def TagListOk (l : List (List Char)) : Prop :=
  (∀ t ∈ l, t ≠ [] ∧ t.map Char.toLower = t) ∧ l.Nodup

/-- Unfolding lemma for `addHashtag`. -/
theorem addHashtag_eq (st : PageState) (tag : List Char) :
    addHashtag st tag =
      if cleanTag tag ≠ [] ∧ cleanTag tag ∉ st.hashtags then
        { st with hashtags := st.hashtags ++ [cleanTag tag], hashtagInput := [] }
      else st := rfl

/-- Handler `addHashtag` preserves the invariant. -/
theorem addHashtag_ok (st : PageState) (tag : List Char)
    (h : TagListOk st.hashtags) : TagListOk (addHashtag st tag).hashtags := by
  rw [addHashtag_eq]
  unfold TagListOk
  split
  · rename_i hc
    simp only
    constructor
    · intro t ht
      rcases List.mem_append.1 ht with h1 | h2
      · exact h.1 t h1
      · have : t = cleanTag tag := by simpa using h2
        subst this
        refine ⟨hc.1, ?_⟩
        unfold cleanTag
        rw [List.map_map]
        exact List.map_congr_left (fun c _ => toLower_idem c)
    · have := h.2
      rw [← List.concat_eq_append]
      exact this.concat hc.2
  · exact h

/-- Handler `removeHashtag` preserves the invariant. -/
theorem removeHashtag_ok (st : PageState) (tag : List Char)
    (h : TagListOk st.hashtags) : TagListOk (removeHashtag st tag).hashtags := by
  unfold removeHashtag TagListOk
  refine ⟨fun t ht => h.1 t (List.mem_of_mem_filter ht), h.2.filter _⟩

/-- Any sequence of edits preserves the invariant. -/
theorem htagFold_ok (ops : List HtagOp) :
    ∀ st : PageState, TagListOk st.hashtags →
      TagListOk ((ops.foldl applyHtagOp st).hashtags) := by
  induction ops with
  | nil => exact fun st h => h
  | cons op ops ih =>
    intro st h
    refine ih _ ?_
    cases op with
    | add t => exact addHashtag_ok st t h
    | remove t => exact removeHashtag_ok st t h

/-- Counterexample to claim C3 as stated: the input `"##a"` cleans to
`"#a"` (only one leading `#` is stripped), so one `addHashtag` call from the
empty list already yields a tag whose first character is `'#'`. -/
theorem hashtag_leading_hash_cex :
    htagRun [.add ['#', '#', 'a']] = [['#', 'a']] ∧
    (['#', 'a'] : List Char).head? = some '#' := by
  constructor
  · decide
  · rfl

/-- Claim C3 (amended): from the empty list, every sequence of `addHashtag`
and `removeHashtag` calls keeps the hashtag list duplicate-free with every
tag nonempty and fixed under lowercasing; `addHashtag` appends at most one
tag per call and appends nothing when the input cleans to the empty string
or to a tag already present. A tag may still begin with `'#'`, because only
the first leading `'#'` of the input is stripped. -/
theorem hashtag_list_invariant (ops : List HtagOp) :
    (∀ t ∈ htagRun ops, t ≠ [] ∧ t.map Char.toLower = t) ∧
    (htagRun ops).Nodup ∧
    (∀ (st : PageState) (tag : List Char),
      (addHashtag st tag).hashtags.length ≤ st.hashtags.length + 1 ∧
      (cleanTag tag = [] ∨ cleanTag tag ∈ st.hashtags →
        (addHashtag st tag).hashtags = st.hashtags)) := by
  have hrun : TagListOk (htagRun ops) :=
    htagFold_ok ops initPage (by constructor <;> simp [initPage])
  refine ⟨hrun.1, hrun.2, fun st tag => ⟨?_, ?_⟩⟩
  · rw [addHashtag_eq]
    split
    · simp
    · simp
  · intro hcl
    rw [addHashtag_eq, if_neg]
    rcases hcl with h1 | h2
    · intro hcontra
      exact hcontra.1 h1
    · intro hcontra
      exact hcontra.2 h2

/-- Witness for the amended claim C3 at a concrete edit sequence: the inputs
`" #Ab "`, `"cd"`, `"#cd"` and a removal of `"ab"` leave the single tag
`"cd"`, which is nonempty, lowercase and duplicate-free; `"#"` cleans to the
empty string and is not added. -/
theorem hashtag_list_invariant_witness :
    ((['c', 'd'] : List Char) ≠ [] ∧
      (['c', 'd'] : List Char).map Char.toLower = ['c', 'd']) ∧
    (htagRun [.add [' ', '#', 'A', 'b', ' '], .add ['c', 'd'],
        .add ['#', 'c', 'd'], .remove ['a', 'b']]).Nodup ∧
    (addHashtag initPage ['#']).hashtags = initPage.hashtags := by
  have h := hashtag_list_invariant
    [.add [' ', '#', 'A', 'b', ' '], .add ['c', 'd'],
     .add ['#', 'c', 'd'], .remove ['a', 'b']]
  refine ⟨h.1 ['c', 'd'] (by decide), h.2.1, (h.2.2 initPage ['#']).2 (Or.inl (by decide))⟩

/-!
Orchestration: `fetchPosts`, `handleSearch` and `handleUpload`. Each
external step (the posts fetch with its JSON parse, the dimension preload,
the placement computation, the trending fetch, the upload request) either
yields a value or throws; the thrown errors are modelled with `Except`, and
the `try`/`catch` blocks of the source become the `Caught` wrappers. The
random `pickRandomCenter` result is an input, as is each awaited result,
since those functions live outside this page. A `CallTrace` records which
pipeline steps a run actually invoked. -/

/-- Response of `/api/explore/posts`. -/
structure PostsResponse where
  success : Bool
  posts : List Post
  total_count : ℤ
  deriving DecidableEq

/-- Response of `/api/explore/trending`. -/
structure TrendingResponse where
  success : Bool
  trending : List TrendingHashtag
  deriving DecidableEq

/-- Response of `/api/explore/upload`. -/
structure UploadResponse where
  success : Bool
  deriving DecidableEq

/-- Which pipeline steps a run invoked. -/
structure CallTrace where
  preloadCalled : Bool
  centerPicked : Bool
  placeCalled : Bool
  deriving DecidableEq

/-- The trace of a run that invoked none of preload, center pick and
placement. -/
def noCalls : CallTrace := ⟨false, false, false⟩

/-- The external results one `fetchPosts` run consumes, each possibly a
thrown error. -/
structure FetchInput where
  postsResp : Except String PostsResponse
  preload : Except String DimMap
  center : Option Post
  place : Except String (List PlacedImage)
  trendingResp : Except String TrendingResponse

/-- The body of `fetchPosts` once the posts response has arrived: on
success store the posts and the total count, and for a nonempty list
preload dimensions, pick a random center and, when there is one, place.
Thrown errors surface as `Except.error` carrying the state reached so far. -/
def fetchPostsAfterPosts (st : PageState) (inp : FetchInput) (pr : PostsResponse) :
    Except (String × PageState × CallTrace) (PageState × CallTrace) :=
  if pr.success then
    let st2 := { st with posts := pr.posts, totalPosts := pr.total_count }
    if 0 < pr.posts.length then
      match inp.preload with
      | .error e => .error (e, st2, ⟨true, false, false⟩)
      | .ok dims =>
        let st3 := { st2 with imageDimensions := dims }
        match inp.center with
        | none => .ok (st3, ⟨true, true, false⟩)
        | some _ =>
          match inp.place with
          | .error e => .error (e, st3, ⟨true, true, true⟩)
          | .ok placed =>
            .ok ({ st3 with placedImages := placed }, ⟨true, true, true⟩)
    else .ok (st2, noCalls)
  else .ok (st, noCalls)

/-- The `try` block of `fetchPosts`: set the loading flag, fetch the posts,
run the placement pipeline, fetch the trending hashtags, clear the loading
flag. -/
def fetchPostsTry (st : PageState) (inp : FetchInput) :
    Except (String × PageState × CallTrace) (PageState × CallTrace) :=
  let st1 := { st with loading := true }
  match inp.postsResp with
  | .error e => .error (e, st1, noCalls)
  | .ok pr =>
    match fetchPostsAfterPosts st1 inp pr with
    | .error x => .error x
    | .ok (s, tr) =>
      match inp.trendingResp with
      | .error e => .error (e, s, tr)
      | .ok trd =>
        if trd.success then
          .ok ({ s with trendingHashtags := trd.trending, loading := false }, tr)
        else .ok ({ s with loading := false }, tr)

/-- Function `fetchPosts` with its `catch`: an error is logged and the loading flag
is cleared. -/
def fetchPostsCaught (st : PageState) (inp : FetchInput) : PageState × CallTrace :=
  match fetchPostsTry st inp with
  | .ok r => r
  | .error (_, s, tr) => ({ s with loading := false }, tr)

/-- The external results one `handleSearch` run consumes; `fetchInp` feeds
the `fetchPosts` call taken when the query is blank. -/
structure SearchInput where
  fetchInp : FetchInput
  postsResp : Except String PostsResponse
  preload : Except String DimMap
  center : Option Post
  place : Except String (List PlacedImage)

/-- The `try` block of `handleSearch` for a non-blank query: fetch the
filtered posts; on success store them and either run the placement pipeline
(nonempty result) or clear the placed images (empty result). -/
def handleSearchTry (st : PageState) (inp : SearchInput) :
    Except (String × PageState × CallTrace) (PageState × CallTrace) :=
  match inp.postsResp with
  | .error e => .error (e, st, noCalls)
  | .ok pr =>
    if pr.success then
      let st1 := { st with posts := pr.posts }
      if 0 < pr.posts.length then
        match inp.preload with
        | .error e => .error (e, st1, ⟨true, false, false⟩)
        | .ok dims =>
          let st2 := { st1 with imageDimensions := dims }
          match inp.center with
          | none => .ok (st2, ⟨true, true, false⟩)
          | some _ =>
            match inp.place with
            | .error e => .error (e, st2, ⟨true, true, true⟩)
            | .ok placed =>
              .ok ({ st2 with placedImages := placed }, ⟨true, true, true⟩)
      else .ok ({ st1 with placedImages := [] }, noCalls)
    else .ok (st, noCalls)

/-- Handler `handleSearch`: a blank query delegates to `fetchPosts`; otherwise the
search pipeline runs under its `try`/`catch`, which only logs. -/
def handleSearchCaught (st : PageState) (inp : SearchInput) : PageState × CallTrace :=
  if jsTrim st.searchQuery = [] then fetchPostsCaught st inp.fetchInp
  else
    match handleSearchTry st inp with
    | .ok r => r
    | .error (_, s, tr) => (s, tr)

/-- The external results one `handleUpload` run consumes. -/
structure UploadInput where
  uploadResp : Except String UploadResponse
  fetchInp : FetchInput

/-- The `try` block of `handleUpload` (after the guard): set the uploading
flag, post the form; on success reset the form, close the modal and re-run
`fetchPosts` (which catches its own errors). -/
def handleUploadTry (st : PageState) (inp : UploadInput) :
    Except (String × PageState) PageState :=
  let st1 := { st with uploading := true }
  match inp.uploadResp with
  | .error e => .error (e, st1)
  | .ok r =>
    if r.success then
      let st2 := { st1 with selectedImage := none, imagePreview := [],
                            hashtags := [], uploadModalOpen := false }
      .ok (fetchPostsCaught st2 inp.fetchInp).1
    else .ok st1

/-- Handler `handleUpload`: the guard returns early without an image or a student;
otherwise the `try`/`catch`/`finally` runs, the `catch` only alerts and the
`finally` clears the uploading flag on every path. -/
def handleUploadCaught (st : PageState) (inp : UploadInput) : PageState :=
  if st.selectedImage = none ∨ st.student = none then st
  else
    match handleUploadTry st inp with
    | .ok s => { s with uploading := false }
    | .error (_, s) => { s with uploading := false }

/-- Every successful `fetchPosts` try ends with the loading flag cleared. -/
theorem fetchPostsTry_ok_loading (st : PageState) (inp : FetchInput)
    (s : PageState) (tr : CallTrace)
    (h : fetchPostsTry st inp = .ok (s, tr)) : s.loading = false := by
  simp only [fetchPostsTry] at h
  split at h
  · simp at h
  · split at h
    · simp at h
    · split at h
      · simp at h
      · split at h <;>
        · simp only [Except.ok.injEq, Prod.mk.injEq] at h
          rw [← h.1]

/-- Claim C5: every error thrown in the fetch → preload → place pipeline or
in the upload request is caught by the enclosing handler (`fetchPosts`,
`handleSearch`, `handleUpload`) and converted to a plain state per the
`catch` block, and `fetchPosts` clears its loading flag on every path,
success or failure. -/
theorem pipeline_faults_caught (st : PageState) (finp : FetchInput)
    (sinp : SearchInput) (uinp : UploadInput) :
    (fetchPostsCaught st finp).1.loading = false ∧
    (∀ (e : String) (s : PageState) (tr : CallTrace),
      fetchPostsTry st finp = .error (e, s, tr) →
        fetchPostsCaught st finp = ({ s with loading := false }, tr)) ∧
    (jsTrim st.searchQuery ≠ [] →
      ∀ (e : String) (s : PageState) (tr : CallTrace),
        handleSearchTry st sinp = .error (e, s, tr) →
          handleSearchCaught st sinp = (s, tr)) ∧
    (st.selectedImage ≠ none → st.student ≠ none →
      ∀ (e : String) (s : PageState),
        handleUploadTry st uinp = .error (e, s) →
          handleUploadCaught st uinp = { s with uploading := false }) := by
  refine ⟨?_, ?_, ?_, ?_⟩
  · unfold fetchPostsCaught
    split
    · rename_i r hr
      exact fetchPostsTry_ok_loading st finp r.1 r.2 (by rw [hr])
    · rfl
  · intro e s tr h
    unfold fetchPostsCaught
    rw [h]
  · intro hq e s tr h
    unfold handleSearchCaught
    rw [if_neg hq, h]
  · intro hsel hstu e s h
    unfold handleUploadCaught
    rw [if_neg (not_or.mpr ⟨hsel, hstu⟩), h]

/-- A concrete page state: a student is logged in, an image is selected,
the query is nonempty. -/
def pageW : PageState :=
  { initPage with searchQuery := ['q'], selectedImage := some ['f'],
                  student := some ['s'] }

/-- A fetch input whose posts request throws. -/
def fetchFailInput : FetchInput :=
  { postsResp := .error "network", preload := .error "unused",
    center := none, place := .error "unused", trendingResp := .error "unused" }

/-- A search input whose posts request throws. -/
def searchFailInput : SearchInput :=
  { fetchInp := fetchFailInput, postsResp := .error "network",
    preload := .error "unused", center := none, place := .error "unused" }

/-- An upload input whose upload request throws. -/
def uploadFailInput : UploadInput :=
  { uploadResp := .error "upload failed", fetchInp := fetchFailInput }

/-- Witness for claim C5: at a concrete state, a failing posts fetch, a
failing search fetch and a failing upload are each caught and produce the
`catch`-block state; the loading flag ends up cleared. -/
theorem pipeline_faults_caught_witness :
    (fetchPostsCaught pageW fetchFailInput).1.loading = false ∧
    fetchPostsCaught pageW fetchFailInput =
      ({ pageW with loading := false }, noCalls) ∧
    handleSearchCaught pageW searchFailInput = (pageW, noCalls) ∧
    handleUploadCaught pageW uploadFailInput =
      { pageW with uploading := false } := by
  have h := pipeline_faults_caught pageW fetchFailInput searchFailInput uploadFailInput
  exact ⟨h.1,
    h.2.1 "network" { pageW with loading := true } noCalls rfl,
    h.2.2.1 (by decide) "network" pageW noCalls rfl,
    h.2.2.2 (by decide) (by decide) "upload failed"
      { pageW with uploading := true } rfl⟩

/-- A concrete post. -/
def postW : Post := { id := 1, image_url := ['u'], posted_by := ['n'] }

/-- A concrete placed image for `postW`. -/
def placedW : PlacedImage := { post := postW, x := 0, y := 0, width := 300, height := 150 }

/-- A fetch input delivering one post that gets placed as `placedW`. -/
def fetchOnePostInput : FetchInput :=
  { postsResp := .ok { success := true, posts := [postW], total_count := 1 },
    preload := .ok [(['u'], 300, 150)],
    center := some postW,
    place := .ok [placedW],
    trendingResp := .ok { success := true, trending := [] } }

/-- A fetch input whose successful posts response is empty. -/
def fetchEmptyInput : FetchInput :=
  { postsResp := .ok { success := true, posts := [], total_count := 0 },
    preload := .error "unused", center := none, place := .error "unused",
    trendingResp := .ok { success := false, trending := [] } }

/-- A search input whose successful posts response is empty. -/
def searchEmptyInput : SearchInput :=
  { fetchInp := fetchEmptyInput,
    postsResp := .ok { success := true, posts := [], total_count := 0 },
    preload := .error "unused", center := none, place := .error "unused" }

/-- Counterexample to claim C4 as stated: after a fetch that placed one
image, a second `fetchPosts` whose successful response has zero posts
leaves the placed-image list unchanged and nonempty — `fetchPosts` has no
branch clearing it. -/
theorem fetch_empty_keeps_stale_placed_cex :
    (fetchPostsCaught (fetchPostsCaught initPage fetchOnePostInput).1
        fetchEmptyInput).1.placedImages = [placedW] ∧
    ([placedW] : List PlacedImage) ≠ [] := by
  exact ⟨rfl, by decide⟩

/-- Claim C4 (amended): for a successful response with zero posts, neither
`fetchPosts` nor `handleSearch` preloads dimensions, picks a center or
invokes the placement engine; `handleSearch` resets the placed-image list
to empty, while `fetchPosts` leaves it unchanged (so it is empty only if it
was already empty). -/
theorem empty_working_set_no_placement (st : PageState) (finp : FetchInput)
    (sinp : SearchInput) (pr spr : PostsResponse)
    (hf : finp.postsResp = .ok pr) (hfs : pr.success = true) (hfe : pr.posts = [])
    (hq : jsTrim st.searchQuery ≠ [])
    (hs : sinp.postsResp = .ok spr) (hss : spr.success = true) (hse : spr.posts = []) :
    (fetchPostsCaught st finp).2 = noCalls ∧
    (fetchPostsCaught st finp).1.placedImages = st.placedImages ∧
    (handleSearchCaught st sinp).2 = noCalls ∧
    (handleSearchCaught st sinp).1.placedImages = [] := by
  have hbody : fetchPostsAfterPosts { st with loading := true } finp pr =
      .ok ({ st with loading := true, posts := pr.posts,
                     totalPosts := pr.total_count }, noCalls) := by
    unfold fetchPostsAfterPosts
    rw [if_pos hfs, if_neg (by rw [hfe]; simp)]
  have hfc : ∀ (p : PageState × CallTrace), fetchPostsCaught st finp = p →
      p.2 = noCalls ∧ p.1.placedImages = st.placedImages := by
    intro p hp
    simp only [fetchPostsCaught, fetchPostsTry, hf, hbody] at hp
    rcases htr : finp.trendingResp with e | trd
    · simp only [htr] at hp
      rw [← hp]
      exact ⟨rfl, rfl⟩
    · simp only [htr] at hp
      by_cases hts : trd.success = true
      · rw [if_pos hts] at hp
        rw [← hp]
        exact ⟨rfl, rfl⟩
      · rw [if_neg hts] at hp
        rw [← hp]
        exact ⟨rfl, rfl⟩
  have hlen : ¬ (0 < spr.posts.length) := by rw [hse]; simp
  have hsc : handleSearchCaught st sinp =
      ({ st with posts := spr.posts, placedImages := [] }, noCalls) := by
    simp only [handleSearchCaught, handleSearchTry, hs, hss, if_true,
               if_neg hq, if_neg hlen]
  obtain ⟨h1, h2⟩ := hfc _ rfl
  exact ⟨h1, h2, by rw [hsc], by rw [hsc]⟩

/-- Witness for the amended claim C4 at a concrete state holding one placed
image: the empty fetch retains it, the empty search clears it, and neither
run invokes any pipeline step. -/
theorem empty_working_set_no_placement_witness :
    (fetchPostsCaught
        { initPage with searchQuery := ['q'], placedImages := [placedW] }
        fetchEmptyInput).2 = noCalls ∧
    (fetchPostsCaught
        { initPage with searchQuery := ['q'], placedImages := [placedW] }
        fetchEmptyInput).1.placedImages =
      ({ initPage with searchQuery := ['q'],
                       placedImages := [placedW] } : PageState).placedImages ∧
    (handleSearchCaught
        { initPage with searchQuery := ['q'], placedImages := [placedW] }
        searchEmptyInput).2 = noCalls ∧
    (handleSearchCaught
        { initPage with searchQuery := ['q'], placedImages := [placedW] }
        searchEmptyInput).1.placedImages = [] := by
  exact empty_working_set_no_placement
    { initPage with searchQuery := ['q'], placedImages := [placedW] }
    fetchEmptyInput searchEmptyInput
    { success := true, posts := [], total_count := 0 }
    { success := true, posts := [], total_count := 0 }
    rfl rfl rfl (by decide) rfl rfl rfl

/-- Claim C10: a hashtag search with a non-blank query never writes the
total-posts count — it is preserved across every path of `handleSearch` —
while on a successful response the posts list is replaced; a blank query
instead delegates to the full fetch `fetchPosts` (the only writer of the
count). -/
theorem search_keeps_totalPosts (st : PageState) (sinp : SearchInput) :
    (jsTrim st.searchQuery ≠ [] →
      (handleSearchCaught st sinp).1.totalPosts = st.totalPosts ∧
      (∀ pr : PostsResponse, sinp.postsResp = .ok pr → pr.success = true →
        (handleSearchCaught st sinp).1.posts = pr.posts)) ∧
    (jsTrim st.searchQuery = [] →
      handleSearchCaught st sinp = fetchPostsCaught st sinp.fetchInp) := by
  constructor
  · intro hq
    have hstate : ∀ (p : PageState × CallTrace), handleSearchCaught st sinp = p →
        p.1.totalPosts = st.totalPosts ∧
        (∀ pr : PostsResponse, sinp.postsResp = .ok pr → pr.success = true →
          p.1.posts = pr.posts) := by
      intro p hp
      simp only [handleSearchCaught, handleSearchTry, if_neg hq] at hp
      rcases hresp : sinp.postsResp with e | pr
      · simp only [hresp] at hp
        rw [← hp]
        exact ⟨rfl, fun pr hpr => by exact absurd hpr (by simp)⟩
      · simp only [hresp] at hp
        have hposts : ∀ pr2 : PostsResponse,
            (Except.ok pr : Except String PostsResponse) = Except.ok pr2 →
            pr2.posts = pr.posts := by
          intro pr2 hpr2
          simp only [Except.ok.injEq] at hpr2
          rw [hpr2]
        by_cases hsucc : pr.success = true
        · simp only [hsucc, if_true] at hp
          by_cases hlen : 0 < pr.posts.length
          · rw [if_pos hlen] at hp
            rcases hpre : sinp.preload with e | dims
            · simp only [hpre] at hp
              rw [← hp]
              exact ⟨rfl, fun pr2 hpr2 _ => (hposts pr2 hpr2).symm ▸ rfl⟩
            · simp only [hpre] at hp
              rcases hcen : sinp.center with _ | c
              · simp only [hcen] at hp
                rw [← hp]
                exact ⟨rfl, fun pr2 hpr2 _ => (hposts pr2 hpr2).symm ▸ rfl⟩
              · simp only [hcen] at hp
                rcases hpl : sinp.place with e | placed
                · simp only [hpl] at hp
                  rw [← hp]
                  exact ⟨rfl, fun pr2 hpr2 _ => (hposts pr2 hpr2).symm ▸ rfl⟩
                · simp only [hpl] at hp
                  rw [← hp]
                  exact ⟨rfl, fun pr2 hpr2 _ => (hposts pr2 hpr2).symm ▸ rfl⟩
          · rw [if_neg hlen] at hp
            rw [← hp]
            exact ⟨rfl, fun pr2 hpr2 _ => (hposts pr2 hpr2).symm ▸ rfl⟩
        · simp only [hsucc, Bool.false_eq_true, if_false] at hp
          rw [← hp]
          refine ⟨rfl, fun pr2 hpr2 hsucc2 => ?_⟩
          simp only [Except.ok.injEq] at hpr2
          rw [← hpr2] at hsucc2
          exact absurd hsucc2 hsucc
    exact hstate _ rfl
  · intro hq
    simp only [handleSearchCaught, if_pos hq]

/-- A second concrete post. -/
def postW2 : Post := { id := 2, image_url := ['v'], posted_by := ['m'] }

/-- A search input with a successful two-post response, whose pipeline
steps all succeed. -/
def searchTwoPostsInput : SearchInput :=
  { fetchInp := fetchEmptyInput,
    postsResp := .ok { success := true, posts := [postW, postW2], total_count := 2 },
    preload := .ok [(['u'], 300, 150), (['v'], 200, 200)],
    center := some postW,
    place := .ok [placedW] }

/-- Witness for claim C10: at a concrete non-blank query and a successful
two-post search response, the total count of the previous full fetch
survives and the posts list is replaced; and at a blank-query state the
search is exactly a full fetch. -/
theorem search_keeps_totalPosts_witness :
    (handleSearchCaught { pageW with totalPosts := 7 }
        searchTwoPostsInput).1.totalPosts =
      ({ pageW with totalPosts := 7 } : PageState).totalPosts ∧
    (handleSearchCaught { pageW with totalPosts := 7 }
        searchTwoPostsInput).1.posts = [postW, postW2] ∧
    handleSearchCaught initPage searchTwoPostsInput =
      fetchPostsCaught initPage searchTwoPostsInput.fetchInp := by
  have h := search_keeps_totalPosts { pageW with totalPosts := 7 } searchTwoPostsInput
  have h2 := search_keeps_totalPosts initPage searchTwoPostsInput
  refine ⟨(h.1 (by decide)).1, ?_, h2.2 (by decide)⟩
  exact (h.1 (by decide)).2 { success := true, posts := [postW, postW2], total_count := 2 }
    rfl rfl

end Milan
